import Mathlib

/-!
Shallow embedding of the IBAN validator (`src/index.js`, class `IBANValidator`)
and proofs of the specification claims.

JavaScript values passed to the public operations are modelled by `JSValue`.
Strings are modelled as Lean `String` / `List Char`; `String.replace(/\s+/g,'')`
is modelled by filtering the JavaScript `\s` character class, and
`toUpperCase()` by the ASCII uppercase map (the inputs the algorithm accepts
are ASCII; non-ASCII characters are rejected by the structural check either way).
-/

/-- Model of a JavaScript value handed to the public static methods.
Non-string values (`null`, `undefined`, booleans, numbers) are rejected by the
`typeof iban !== 'string'` guards. -/
inductive JSValue where
  | vNull
  | vUndefined
  | vBool (b : Bool)
  | vNum (n : Int)
  | vStr (s : String)
deriving DecidableEq

/-- The character class `\s` of JavaScript regular expressions, used by
`iban.replace(/\s+/g, '')`. -/
def wsProp (n : Nat) : Prop :=
  n = 9 ∨ n = 10 ∨ n = 11 ∨ n = 12 ∨ n = 13 ∨ n = 32 ∨ n = 160 ∨ n = 5760 ∨
  (8192 ≤ n ∧ n ≤ 8202) ∨ n = 8232 ∨ n = 8233 ∨ n = 8239 ∨ n = 8287 ∨
  n = 12288 ∨ n = 65279

instance (n : Nat) : Decidable (wsProp n) := by
  unfold wsProp; infer_instance

/-- Whether a character is removed by `replace(/\s+/g, '')`. -/
def isJsWhitespace (c : Char) : Bool :=
  decide (wsProp c.toNat)

/-- `iban.replace(/\s+/g, '').toUpperCase()` on the character list of the
string: drop the whitespace, then uppercase (ASCII). -/
def normalizeIban (s : List Char) : List Char :=
  (s.filter (fun c => !isJsWhitespace c)).map Char.toUpper

/-- String-level wrapper of `normalizeIban`. -/
def normalizeStr (s : String) : String :=
  String.mk (normalizeIban s.data)

/-- `code >= 65 && code <= 90`: an uppercase ASCII letter `[A-Z]`. -/
def isUpperAlpha (c : Char) : Bool :=
  65 ≤ c.toNat && c.toNat ≤ 90

/-- A decimal digit `[0-9]`. -/
def isDigitCh (c : Char) : Bool :=
  48 ≤ c.toNat && c.toNat ≤ 57

/-- The structural regular expression `/^[A-Z]{2}[0-9]{2}[A-Z0-9]+$/` of
`validate`, as a predicate on the character list of the normalized string. -/
def matchesIbanShape (s : List Char) : Bool :=
  match s with
  | a :: b :: c :: d :: rest =>
      isUpperAlpha a && isUpperAlpha b && isDigitCh c && isDigitCh d &&
      !rest.isEmpty && rest.all (fun ch => isUpperAlpha ch || isDigitCh ch)
  | _ => false

/-- The static field `#countryLengths`, in source order. -/
def countryLengths : List (String × Nat) :=
  [("AD", 24), ("AE", 23), ("AL", 28), ("AT", 20), ("AZ", 28),
   ("BA", 20), ("BE", 16), ("BG", 22), ("BH", 22), ("BR", 29),
   ("BY", 28), ("CH", 21), ("CR", 22), ("CY", 28), ("CZ", 24),
   ("DE", 22), ("DK", 18), ("DO", 28), ("EE", 20), ("EG", 29),
   ("ES", 24), ("FI", 18), ("FO", 18), ("FR", 27), ("GB", 22),
   ("GE", 22), ("GI", 23), ("GL", 18), ("GR", 27), ("GT", 28),
   ("HR", 21), ("HU", 28), ("IE", 22), ("IL", 23), ("IS", 26),
   ("IT", 27), ("JO", 30), ("KW", 30), ("KZ", 20), ("LB", 28),
   ("LC", 32), ("LI", 21), ("LT", 20), ("LU", 20), ("LV", 21),
   ("MC", 27), ("MD", 24), ("ME", 22), ("MK", 19), ("MR", 27),
   ("MT", 31), ("MU", 30), ("NL", 18), ("NO", 15), ("PK", 24),
   ("PL", 28), ("PS", 29), ("PT", 25), ("QA", 29), ("RO", 24),
   ("RS", 22), ("SA", 24), ("SE", 24), ("SI", 19), ("SK", 24),
   ("SM", 27), ("TN", 24), ("TR", 26), ("UA", 29), ("VG", 24),
   ("XK", 20)]

/-- `this.#countryLengths[countryCode]`: property lookup on the table.
`undefined` (key absent) is `none`; the `if (!expectedLength)` guard of
`validate` is the `none` branch, since every stored length is nonzero. -/
def lookupCountry (code : List Char) : Option Nat :=
  (countryLengths.find? (fun p => p.1.data == code)).map Prod.snd

/-- One character of `#prepareIban`'s map: an uppercase letter becomes the
decimal digits of `charCode - 55` (A=10 … Z=35), anything else stays. -/
def charToIbanDigits (c : Char) : List Char :=
  if 65 ≤ c.toNat && c.toNat ≤ 90 then (Nat.repr (c.toNat - 55)).data else [c]

/-- `#prepareIban`: move the first four characters to the end
(`iban.slice(4) + iban.slice(0, 4)`), then map each character through the
letter-to-digits conversion and concatenate. -/
def prepareIban (s : List Char) : List Char :=
  ((s.drop 4 ++ s.take 4).map charToIbanDigits).flatten

/-- `parseInt` of a single decimal digit character. -/
def digitVal (c : Char) : Nat :=
  c.toNat - 48

/-- `#mod97`: iterative remainder, `remainder = (remainder * 10 + digit) % 97`
over the digits in order, starting from 0. -/
def mod97 (s : List Char) : Nat :=
  s.foldl (fun r c => (r * 10 + digitVal c) % 97) 0

/-- The value of a decimal-digit string read as one arbitrary-precision
decimal number (most significant digit first). -/
def decimalValue (s : List Char) : Nat :=
  s.foldl (fun n c => n * 10 + digitVal c) 0

/-- `IBANValidator.validate`. The guard `!iban || typeof iban !== 'string'`
rejects every non-string value and the empty string. -/
def validate (v : JSValue) : Bool :=
  match v with
  | JSValue.vStr s =>
      if s.data.isEmpty then false
      else
        let cleanIban := normalizeIban s.data
        if !matchesIbanShape cleanIban then false
        else
          match lookupCountry (cleanIban.take 2) with
          | none => false
          | some expectedLength =>
              if cleanIban.length ≠ expectedLength then false
              else mod97 (prepareIban cleanIban) == 1
  | _ => false

/-- `IBANValidator.isValid`: alias of `validate`. -/
def isValid (v : JSValue) : Bool :=
  validate v

/-- `IBANValidator.getCountryCode`. The guard checks the raw (un-normalized)
length; the result is `cleanIban.slice(0, 2)` of the normalized string. -/
def getCountryCode (v : JSValue) : Option String :=
  match v with
  | JSValue.vStr s =>
      if s.data.isEmpty || s.data.length < 2 then none
      else some (String.mk ((normalizeIban s.data).take 2))
  | _ => none

/-- `cleanIban.match(/.{1,4}/g)`: split into runs of at most four characters,
left to right. -/
def chunk4 : List Char → List (List Char)
  | [] => []
  | [a] => [[a]]
  | [a, b] => [[a, b]]
  | [a, b, c] => [[a, b, c]]
  | a :: b :: c :: d :: rest => [a, b, c, d] :: chunk4 rest

/-- `Array.prototype.join(' ')` on the chunk list. -/
def joinSep : List (List Char) → List Char
  | [] => []
  | [x] => x
  | x :: y :: rest => x ++ ' ' :: joinSep (y :: rest)

/-- `IBANValidator.format`. On a whitespace-only string `match` returns
`null`, and `?.join(' ') || cleanIban` falls back to the (empty) normalized
string. -/
def format (v : JSValue) : String :=
  match v with
  | JSValue.vStr s =>
      if s.data.isEmpty then ""
      else
        let cleanIban := normalizeIban s.data
        if cleanIban.isEmpty then String.mk cleanIban
        else String.mk (joinSep (chunk4 cleanIban))
  | _ => ""

/-! ### Helper lemmas about characters and normalization -/

theorem char_toNat_ofNat {n : Nat} (h : Nat.isValidChar n) :
    (Char.ofNat n).toNat = n := by
  unfold Char.ofNat
  rw [dif_pos h]
  simp [Char.ofNatAux, Char.toNat, UInt32.toNat]

theorem toUpper_toNat (c : Char) :
    c.toUpper.toNat = if 97 ≤ c.toNat ∧ c.toNat ≤ 122 then c.toNat - 32 else c.toNat := by
  by_cases h : 97 ≤ c.toNat ∧ c.toNat ≤ 122
  · rw [if_pos h]
    show (if c.toNat ≥ 97 ∧ c.toNat ≤ 122 then Char.ofNat (c.toNat - 32) else c).toNat
        = c.toNat - 32
    rw [if_pos ⟨h.1, h.2⟩]
    exact char_toNat_ofNat (Or.inl (by omega))
  · rw [if_neg h]
    show (if c.toNat ≥ 97 ∧ c.toNat ≤ 122 then Char.ofNat (c.toNat - 32) else c).toNat
        = c.toNat
    rw [if_neg (fun hc => h ⟨hc.1, hc.2⟩)]

theorem toUpper_eq_self {c : Char} (h : ¬(97 ≤ c.toNat ∧ c.toNat ≤ 122)) :
    c.toUpper = c := by
  show (if c.toNat ≥ 97 ∧ c.toNat ≤ 122 then Char.ofNat (c.toNat - 32) else c) = c
  rw [if_neg (fun hc => h ⟨hc.1, hc.2⟩)]

theorem toUpper_idem (c : Char) : c.toUpper.toUpper = c.toUpper := by
  by_cases h : 97 ≤ c.toNat ∧ c.toNat ≤ 122
  · apply toUpper_eq_self
    rw [toUpper_toNat, if_pos h]
    omega
  · rw [toUpper_eq_self h]
    exact toUpper_eq_self h

theorem isJsWhitespace_toUpper (c : Char) :
    isJsWhitespace c.toUpper = isJsWhitespace c := by
  unfold isJsWhitespace
  rw [decide_eq_decide, toUpper_toNat]
  unfold wsProp
  split
  · omega
  · exact Iff.rfl

theorem normalizeIban_idem (l : List Char) :
    normalizeIban (normalizeIban l) = normalizeIban l := by
  unfold normalizeIban
  rw [List.filter_map]
  have hcomp : ((fun c => !isJsWhitespace c) ∘ Char.toUpper) = fun c => !isJsWhitespace c := by
    funext c
    simp [Function.comp, isJsWhitespace_toUpper]
  rw [hcomp]
  rw [List.filter_eq_self.mpr (fun a ha => (List.mem_filter.mp ha).2)]
  simp [List.map_map, Function.comp, toUpper_idem]

theorem chunk4_flatten : ∀ l : List Char, (chunk4 l).flatten = l
  | [] => rfl
  | [a] => rfl
  | [a, b] => rfl
  | [a, b, c] => rfl
  | a :: b :: c :: d :: rest => by
      simp [chunk4, chunk4_flatten rest]

theorem filter_joinSep (p : Char → Bool) (hp : p ' ' = false) :
    ∀ L : List (List Char), (joinSep L).filter p = L.flatten.filter p
  | [] => rfl
  | [x] => by simp [joinSep]
  | x :: y :: rest => by
      simp [joinSep, List.filter_append, List.filter_cons, hp,
        filter_joinSep p hp (y :: rest)]

theorem normalizeIban_joinSep_chunk4 (l : List Char) :
    normalizeIban (joinSep (chunk4 l)) = normalizeIban l := by
  unfold normalizeIban
  rw [filter_joinSep _ (by decide), chunk4_flatten]

theorem string_eq_empty_iff (s : String) : s = "" ↔ s.data = [] := by
  constructor
  · intro h
    rw [h]
  · intro h
    cases s
    simp only at h
    rw [h]

theorem foldl_mod97 (s : List Char) :
    ∀ r : Nat,
      s.foldl (fun a c => (a * 10 + digitVal c) % 97) (r % 97) =
        (s.foldl (fun a c => a * 10 + digitVal c) r) % 97 := by
  induction s with
  | nil =>
      intro r
      rfl
  | cons c t ih =>
      intro r
      simp only [List.foldl_cons]
      have h1 : (r % 97 * 10 + digitVal c) % 97 = (r * 10 + digitVal c) % 97 := by
        omega
      rw [h1]
      exact ih (r * 10 + digitVal c)

theorem matchesIbanShape_ne_nil {l : List Char} (h : matchesIbanShape l = true) :
    l ≠ [] := by
  intro hl
  rw [hl] at h
  exact absurd h (by decide)

/-- Unfolding of `validate` on a string argument into the conjunction of its
four checks. -/
theorem validate_vStr_eq_true_iff (s : String) :
    validate (JSValue.vStr s) = true ↔
      s.data ≠ [] ∧
      matchesIbanShape (normalizeIban s.data) = true ∧
      (∃ len, lookupCountry ((normalizeIban s.data).take 2) = some len ∧
        (normalizeIban s.data).length = len) ∧
      mod97 (prepareIban (normalizeIban s.data)) = 1 := by
  simp only [validate]
  by_cases he : s.data.isEmpty
  · rw [if_pos he]
    simp [List.isEmpty_iff.mp he]
  · rw [if_neg he]
    have hne : s.data ≠ [] := by
      simpa [List.isEmpty_iff] using he
    by_cases hm : matchesIbanShape (normalizeIban s.data)
    · simp only [hm, Bool.not_true, if_neg (by simp : ¬((false : Bool) = true))]
      cases hlk : lookupCountry ((normalizeIban s.data).take 2) with
      | none => simp [hne, hm, hlk]
      | some len =>
          by_cases hlen : (normalizeIban s.data).length = len
          · simp [hne, hm, hlk, hlen]
          · simp [hne, hm, hlk, hlen]
    · simp [hne, hm]

/-! ### Claim theorems -/

/-- C1: `validate` returns `true` iff the input is a non-empty string, its
normalization matches the shape "two uppercase letters, two digits, one or more
uppercase letters or digits", its first two normalized characters are a key of
the country-length table whose expected length equals the normalized length,
and the mod-97 remainder of the numeric transform equals 1; every failure of
any condition returns `false`. -/
theorem validate_true_iff_checks (v : JSValue) :
    validate v = true ↔
      ∃ s : String, v = JSValue.vStr s ∧ s ≠ "" ∧
        matchesIbanShape (normalizeIban s.data) = true ∧
        (∃ len, lookupCountry ((normalizeIban s.data).take 2) = some len ∧
          (normalizeIban s.data).length = len) ∧
        mod97 (prepareIban (normalizeIban s.data)) = 1 := by
  cases v with
  | vStr s =>
      rw [validate_vStr_eq_true_iff]
      constructor
      · rintro ⟨h1, h2, h3, h4⟩
        exact ⟨s, rfl, fun hs => h1 ((string_eq_empty_iff s).mp hs), h2, h3, h4⟩
      · rintro ⟨t, ht, h1, h2, h3, h4⟩
        injection ht with hteq
        subst hteq
        exact ⟨fun hd => h1 ((string_eq_empty_iff s).mpr hd), h2, h3, h4⟩
  | vNull => simp [validate]
  | vUndefined => simp [validate]
  | vBool b => simp [validate]
  | vNum n => simp [validate]

/-- C2: the iterative digit-by-digit remainder of `#mod97` equals the value of
the whole decimal-digit string taken modulo 97. -/
theorem mod97_eq_decimalValue_mod (s : List Char)
    (_h : ∀ c ∈ s, isDigitCh c = true) :
    mod97 s = decimalValue s % 97 := by
  have h0 := foldl_mod97 s 0
  simpa [mod97, decimalValue] using h0

theorem mod97_eq_decimalValue_mod_witness :
    (∀ c ∈ ['9', '8', '7'], isDigitCh c = true) ∧
    mod97 ['9', '8', '7'] = decimalValue ['9', '8', '7'] % 97 :=
  ⟨by decide, mod97_eq_decimalValue_mod ['9', '8', '7'] (by decide)⟩

/-- C3: the three public operations are total functions (no exception in the
embedding), and every non-string or empty input collapses to the single
negative result of each operation: `false`, `""`, `none`. -/
theorem ops_flat_negative_results :
    (∀ v : JSValue, (∀ s : String, v ≠ JSValue.vStr s) →
      validate v = false ∧ format v = "" ∧ getCountryCode v = none) ∧
    validate JSValue.vNull = false ∧
    validate JSValue.vUndefined = false ∧
    validate (JSValue.vStr "") = false ∧
    format (JSValue.vStr "") = "" ∧
    getCountryCode (JSValue.vStr "") = none := by
  refine ⟨?_, by decide, by decide, by decide, by decide, by decide⟩
  intro v hv
  cases v <;> first
    | exact absurd rfl (hv _)
    | exact ⟨rfl, rfl, rfl⟩

theorem ops_flat_negative_results_witness :
    validate (JSValue.vNum 7) = false ∧
    format (JSValue.vBool true) = "" ∧
    getCountryCode JSValue.vUndefined = none :=
  ⟨(ops_flat_negative_results.1 (JSValue.vNum 7)
      (fun _ h => JSValue.noConfusion h)).1,
   (ops_flat_negative_results.1 (JSValue.vBool true)
      (fun _ h => JSValue.noConfusion h)).2.1,
   (ops_flat_negative_results.1 JSValue.vUndefined
      (fun _ h => JSValue.noConfusion h)).2.2⟩

/-- C4: formatting a valid IBAN never changes the verdict: if `validate`
accepts a string then it accepts the `format` of that string. -/
theorem validate_format_stable (s : String)
    (h : validate (JSValue.vStr s) = true) :
    validate (JSValue.vStr (format (JSValue.vStr s))) = true := by
  rw [validate_vStr_eq_true_iff] at h
  obtain ⟨h1, h2, h3, h4⟩ := h
  have hclean_ne : normalizeIban s.data ≠ [] := matchesIbanShape_ne_nil h2
  have hfmt : format (JSValue.vStr s) =
      String.mk (joinSep (chunk4 (normalizeIban s.data))) := by
    simp only [format]
    rw [if_neg (by simpa [List.isEmpty_iff] using h1),
      if_neg (by simpa [List.isEmpty_iff] using hclean_ne)]
  rw [hfmt, validate_vStr_eq_true_iff]
  have hnorm : normalizeIban (joinSep (chunk4 (normalizeIban s.data))) =
      normalizeIban s.data := by
    rw [normalizeIban_joinSep_chunk4, normalizeIban_idem]
  refine ⟨?_, ?_, ?_, ?_⟩
  · intro hnil
    apply hclean_ne
    rw [← hnorm]
    rw [show (String.mk (joinSep (chunk4 (normalizeIban s.data)))).data =
        joinSep (chunk4 (normalizeIban s.data)) from rfl] at hnil
    rw [hnil]
    rfl
  · show matchesIbanShape (normalizeIban (joinSep (chunk4 (normalizeIban s.data)))) = true
    rw [hnorm]
    exact h2
  · show ∃ len,
        lookupCountry ((normalizeIban (joinSep (chunk4 (normalizeIban s.data)))).take 2) =
          some len ∧
        (normalizeIban (joinSep (chunk4 (normalizeIban s.data)))).length = len
    rw [hnorm]
    exact h3
  · show mod97 (prepareIban (normalizeIban (joinSep (chunk4 (normalizeIban s.data))))) = 1
    rw [hnorm]
    exact h4

theorem validate_format_stable_witness :
    validate (JSValue.vStr (format (JSValue.vStr "DE89370400440532013000"))) = true :=
  validate_format_stable "DE89370400440532013000" (by decide)

/-- C5: on a string of raw length at least 2, `getCountryCode` returns the
first two characters of the normalized input; on a missing value, non-string,
or raw length below 2 it returns `none`, without any structural validation. -/
theorem getCountryCode_spec :
    (∀ s : String, 2 ≤ s.data.length →
      getCountryCode (JSValue.vStr s) =
        some (String.mk ((normalizeIban s.data).take 2))) ∧
    (∀ s : String, s.data.length < 2 →
      getCountryCode (JSValue.vStr s) = none) ∧
    (∀ v : JSValue, (∀ s : String, v ≠ JSValue.vStr s) →
      getCountryCode v = none) := by
  refine ⟨?_, ?_, ?_⟩
  · intro s hs
    have h1 : s.data.isEmpty = false := by
      simp only [List.isEmpty_eq_false_iff_exists_mem]
      cases hd : s.data with
      | nil => rw [hd] at hs; simp at hs
      | cons a t => exact ⟨a, by simp⟩
    have h2 : ¬s.length < 2 := by
      show ¬s.data.length < 2
      omega
    simp [getCountryCode, h1, h2]
  · intro s hs
    have h2 : s.length < 2 := hs
    simp [getCountryCode, h2]
  · intro v hv
    cases v <;> first
      | exact absurd rfl (hv _)
      | rfl

theorem getCountryCode_spec_witness :
    getCountryCode (JSValue.vStr "GB82WEST12345698765432") =
      some (String.mk ((normalizeIban ("GB82WEST12345698765432" : String).data).take 2)) ∧
    getCountryCode (JSValue.vStr "D") = none ∧
    getCountryCode JSValue.vNull = none :=
  ⟨getCountryCode_spec.1 "GB82WEST12345698765432" (by decide),
   getCountryCode_spec.2.1 "D" (by decide),
   getCountryCode_spec.2.2 JSValue.vNull (fun _ h => JSValue.noConfusion h)⟩

/-- C6: the concrete scenarios of the spec hold on the embedding. -/
theorem concrete_scenarios :
    validate (JSValue.vStr "DE89370400440532013000") = true ∧
    validate (JSValue.vStr "DE89370400440532013001") = false ∧
    format (JSValue.vStr "DE89370400440532013000") = "DE89 3704 0044 0532 0130 00" ∧
    getCountryCode (JSValue.vStr "GB82WEST12345698765432") = some "GB" ∧
    getCountryCode (JSValue.vStr "D") = none := by
  decide

/-- C7: every key of the country-length table is a two-character uppercase
code, and every value lies between 15 and 34. (The table is a closed `def`,
populated once; no operation of the embedding modifies it.) -/
theorem countryLengths_wellformed :
    countryLengths.all
      (fun p => p.1.data.length == 2 &&
        p.1.data.all (fun c => isUpperAlpha c) &&
        decide (15 ≤ p.2) && decide (p.2 ≤ 34)) = true := by
  decide

/-- C8: normalization (whitespace removal plus upper-casing) is idempotent. -/
theorem normalizeStr_idempotent (s : String) :
    normalizeStr (normalizeStr s) = normalizeStr s := by
  show String.mk (normalizeIban (String.mk (normalizeIban s.data)).data) =
      String.mk (normalizeIban s.data)
  exact congrArg String.mk (normalizeIban_idem s.data)

/-- C9: `isValid` is extensionally equal to `validate`. -/
theorem isValid_eq_validate (v : JSValue) : isValid v = validate v := rfl

/-- C10: on the input `" D"` (raw length 2, normalization of length 1),
`getCountryCode` returns the entire normalized string `"D"`, a non-null result
of length below 2, rather than `null` or a two-character code. -/
theorem getCountryCode_short_normalized :
    (" D" : String).data.length = 2 ∧
    (normalizeIban (" D" : String).data).length = 1 ∧
    getCountryCode (JSValue.vStr " D") =
      some (String.mk (normalizeIban (" D" : String).data)) ∧
    getCountryCode (JSValue.vStr " D") = some "D" := by
  decide
